import Mathlib

/-!
# Off-CPU latency example (`examples/offcpu.c`)

A shallow embedding of the off-CPU example of the latency tracker: the stack
capture (`__save_stack_address`, `extract_stack`), the tracker callback
(`offcpu_cb`) and the two scheduler probes (`probe_sched_switch`,
`probe_sched_wakeup`), followed by the properties proved about them.

Conventions.
* Unsigned machine integers are `Nat`, signed ones are `Int`; every operation
  that can wrap in C is reduced explicitly.
* Kernel facilities the file only calls (`dump_trace`, `in_sched_functions`,
  the `%pS` rendering, `pid_task`, the task flags) are fields of `Kernel`.
* Calls into the tracker and tracepoint emissions are recorded, in program
  order, as a list of `Effect`; values returned by the tracker are inputs.
* `rcu_read_lock` / `rcu_read_unlock` have no effect on the modelled state
  and are left out.
-/

namespace Offcpu

/-! ## Configuration and kernel environment -/

/-- Width of the C types `unsigned long` and `size_t` on the target. -/
inductive LongBits where
  | b32 : LongBits
  | b64 : LongBits
  deriving DecidableEq, Repr

/-- Number of bits of an `unsigned long`. -/
def LongBits.bits : LongBits → Nat
  | .b32 => 32
  | .b64 => 64

/-- Preprocessor symbols tested by the source, and the width of `unsigned long`. -/
structure Config where
  CONFIG_FRAME_POINTER : Bool
  URCUHT : Bool
  RHASHTABLE : Bool
  SCHEDWORST : Bool
  long_bits : LongBits
  deriving DecidableEq, Repr

/-- The fields of `struct task_struct` that the example reads. -/
structure task_struct where
  pid : Int
  comm : List Char
  flags : Nat
  on_cpu : Nat
  deriving DecidableEq, Repr

/-- Kernel facilities used by the example but defined outside of it. -/
structure Kernel where
  /-- Task flag `PF_KTHREAD`. -/
  PF_KTHREAD : Nat
  /-- Task flag `PF_WQ_WORKER`. -/
  PF_WQ_WORKER : Nat
  /-- Kernel predicate `in_sched_functions(addr)`. -/
  in_sched_functions : Nat → Bool
  /-- Text produced by the `%pS` conversion for an address. It holds no `%`,
  so that the text, used as a format by the second `snprintf`, is copied
  literally. -/
  pS : Nat → List Char
  /-- Result of `pid_task(find_vpid(pid), PIDTYPE_PID)`. -/
  pid_task : Int → Option task_struct
  /-- Addresses that `dump_trace` reports for a task, in order, each with
  the `reliable` argument handed to the `address` callback. -/
  dump_trace : task_struct → List (Nat × Int)
  /-- Value of `latency_tracker_get_priv(tracker)`. -/
  priv : Nat

/-! ## Machine arithmetic -/

/-- Reduction of a natural number to `u64`. -/
def u64 (x : Nat) : Nat := x % 2 ^ 64

/-- Reduction of a natural number to `unsigned long`. -/
def ulong (cfg : Config) (x : Nat) : Nat := x % 2 ^ cfg.long_bits.bits

/-- Subtraction of two `u64` values. -/
def u64_sub (a b : Nat) : Nat := (a + 2 ^ 64 - b % 2 ^ 64) % 2 ^ 64

/-- Conversion of an `int` value to `size_t`. -/
def size_t (cfg : Config) (x : Int) : Nat := (x % (2 : Int) ^ cfg.long_bits.bits).toNat

/-- Largest value of the C type `int`. -/
def INT_MAX : Int := 2147483647

/-- Smallest value of the C type `int`. -/
def INT_MIN : Int := -2147483648

/-- Reduction of an integer to the 32-bit two's complement range of `int`
(the kernel is built with wrapping signed arithmetic). -/
def wrap_int (x : Int) : Int := (x + 2147483648) % 4294967296 - 2147483648

/-! ## Stack capture -/

/-- The kernel's `struct stack_trace`; `entries` is the memory the `entries`
pointer refers to, indexed from that pointer. -/
structure stack_trace where
  nr_entries : Nat
  max_entries : Nat
  entries : Nat → Nat
  skip : Int

/-- Callback `__save_stack_address(data, addr, reliable, nosched)`. -/
def __save_stack_address (cfg : Config) (k : Kernel) (trace : stack_trace)
    (addr : Nat) (reliable nosched : Bool) : stack_trace :=
  if cfg.CONFIG_FRAME_POINTER && !reliable then trace
  else if nosched && k.in_sched_functions addr then trace
  else if trace.skip > 0 then { trace with skip := trace.skip - 1 }
  else if trace.nr_entries < trace.max_entries then
    { trace with
      entries := Function.update trace.entries trace.nr_entries addr
      nr_entries := trace.nr_entries + 1 }
  else trace

/-- Callback `save_stack_address(data, addr, reliable)`; the `int` argument
`reliable` is converted to `bool`. -/
def save_stack_address (cfg : Config) (k : Kernel) (trace : stack_trace)
    (addr : Nat) (reliable : Int) : stack_trace :=
  __save_stack_address cfg k trace addr (decide (reliable ≠ 0)) false

/-- The test that decides whether `__save_stack_address` goes on to the
`skip` and capacity checks: the address is neither dropped as unreliable
(under `CONFIG_FRAME_POINTER`) nor as scheduler-internal. -/
def accepted (cfg : Config) (k : Kernel) (addr : Nat) (reliable nosched : Bool) : Bool :=
  !(cfg.CONFIG_FRAME_POINTER && !reliable) && !(nosched && k.in_sched_functions addr)

/-- A sequence of `save_stack_address` calls, as issued by a stack walk. -/
def save_all (cfg : Config) (k : Kernel) (trace : stack_trace)
    (calls : List (Nat × Int)) : stack_trace :=
  calls.foldl (fun t c => save_stack_address cfg k t c.1 c.2) trace

/-- Size of the stack text buffers, `MAX_STACK_TXT`. -/
def MAX_STACK_TXT : Int := 256

/-- The NUL character. -/
def NUL : Char := Char.ofNat 0

/-- Memory around a text buffer, addressed by the offset from the start of
the buffer; `none` is a byte that was never written. -/
abbrev Mem := Int → Option Char

/-- A buffer none of whose bytes has been written (a fresh local array). -/
def unwritten : Mem := fun _ => none

/-- The C string held by `tmp` after `snprintf(tmp, 48, "%pS\n", addr)`:
at most 47 characters of the rendering followed by a newline, up to the
first NUL. Its length is what `strlen(tmp)` returns. -/
def frame_text (k : Kernel) (addr : Nat) : List Char :=
  (((k.pS addr) ++ [Char.ofNat 10]).take 47).takeWhile (fun c => c != NUL)

/-- Effect of `snprintf(dst, size, text)` for a text without conversions,
`dst` being at offset `off`: nothing when `size` is 0, otherwise the first
`min (strlen text) (size - 1)` characters followed by a NUL. -/
def snprintf (m : Mem) (off : Int) (size : Nat) (text : List Char) : Mem :=
  if size = 0 then m
  else fun a =>
    if off ≤ a ∧ a < off + (min text.length (size - 1) : Nat) then text[(a - off).toNat]?
    else if a = off + (min text.length (size - 1) : Nat) then some NUL
    else m a

/-- One call `snprintf(stacktxt + off, size, text)` made by `extract_stack`. -/
structure snprintf_call where
  off : Int
  size : Nat
  text : List Char
  deriving DecidableEq, Repr

/-- The `for` loop of `extract_stack`, from index `i` with write offset `j`,
`n` being the number of indices left (`nr_entries - i`); the result is the
sequence of `snprintf` calls on `stacktxt`. -/
def extract_stack_loop (cfg : Config) (k : Kernel) (trace : stack_trace) (skip : Int) :
    Nat → Nat → Int → List snprintf_call
  | 0, _, _ => []
  | n + 1, i, j =>
    if (i : Int) < skip then extract_stack_loop cfg k trace skip n (i + 1) j
    else
      let tmp := frame_text k (trace.entries i)
      let frame_len := tmp.length
      let call : snprintf_call := ⟨j, size_t cfg (MAX_STACK_TXT - j), tmp⟩
      if MAX_STACK_TXT - (j + frame_len) < 0 then [call]
      else call :: extract_stack_loop cfg k trace skip n (i + 1) (j + frame_len)

/-- The trace filled by `dump_trace` in `extract_stack`: 32 entries at most,
nothing skipped by the walker. -/
def captured (cfg : Config) (k : Kernel) (p : task_struct) : stack_trace :=
  save_all cfg k { nr_entries := 0, max_entries := 32, entries := fun _ => 0, skip := 0 }
    (k.dump_trace p)

/-- The `snprintf` calls made by `extract_stack(p, stacktxt, delay, skip)`. -/
def extract_stack_calls (cfg : Config) (k : Kernel) (p : task_struct) (skip : Int) :
    List snprintf_call :=
  extract_stack_loop cfg k (captured cfg k p) skip (captured cfg k p).nr_entries 0 0

/-- Memory after a sequence of `snprintf` calls. -/
def run_calls (m : Mem) (calls : List snprintf_call) : Mem :=
  calls.foldl (fun acc c => snprintf acc c.off c.size c.text) m

/-- Function `extract_stack(p, stacktxt, delay, skip)`: the memory of
`stacktxt` afterwards. -/
def extract_stack (cfg : Config) (k : Kernel) (p : task_struct) (stacktxt : Mem)
    (_delay : Nat) (skip : Int) : Mem :=
  run_calls stacktxt (extract_stack_calls cfg k p skip)

/-- The frame texts of the captured entries with index at least `skip`, in order. -/
def frame_texts (k : Kernel) (trace : stack_trace) (skip : Int) : List (List Char) :=
  ((List.range trace.nr_entries).filter (fun (i : Nat) => decide (skip ≤ (i : Int)))).map
    (fun i => frame_text k (trace.entries i))

/-- The 256 bytes of a stack text buffer, as copied into a trace record. -/
def stack_bytes (m : Mem) : List (Option Char) :=
  (List.range 256).map (fun i => m (i : Int))

/-- A sequence of `__save_stack_address` calls, each given as the address
with its `reliable` and `nosched` arguments. -/
def save_seq (cfg : Config) (k : Kernel) (trace : stack_trace)
    (calls : List (Nat × Bool × Bool)) : stack_trace :=
  calls.foldl (fun t c => __save_stack_address cfg k t c.1 c.2.1 c.2.2) trace

/-- The addresses of a sequence of `__save_stack_address` calls that pass the
reliability and scheduler tests, in call order. -/
def accepted_seq (cfg : Config) (k : Kernel) (calls : List (Nat × Bool × Bool)) : List Nat :=
  (calls.filter (fun c => accepted cfg k c.1 c.2.1 c.2.2)).map (fun c => c.1)

/-- The body of the loop of `extract_stack` run over the texts of the frames
that are not skipped, from write offset `j`. -/
def write_texts (cfg : Config) : List (List Char) → Int → List snprintf_call
  | [], _ => []
  | t :: ts, j =>
    if MAX_STACK_TXT - (j + t.length) < 0 then [⟨j, size_t cfg (MAX_STACK_TXT - j), t⟩]
    else ⟨j, size_t cfg (MAX_STACK_TXT - j), t⟩ :: write_texts cfg ts (j + t.length)

/-- The buffer at offset 0 of `m` holds the C string made of the first 255
characters of `text`: those characters, then a NUL. -/
def holds_text (m : Mem) (text : List Char) : Prop :=
  (∀ i : Nat, i < min text.length 255 → m (i : Int) = text[i]?) ∧
    m ((min text.length 255 : Nat) : Int) = some NUL

/-! ## Tracker interface -/

/-- Key of a tracked event, `struct schedkey`. -/
structure schedkey where
  pid : Int
  deriving DecidableEq, Repr

/-- Exit code `SCHED_EXIT_NORMAL`. -/
def SCHED_EXIT_NORMAL : Nat := 0

/-- Exit code `SCHED_EXIT_DIED`. -/
def SCHED_EXIT_DIED : Nat := 1

/-- Modelled from the spec: the trigger flag of a callback invocation
(`enum latency_tracker_cb_flag` is declared in `latency_tracker.h`, which is
not among the sources): threshold crossed at a normal close, timeout, or
teardown. -/
inductive latency_tracker_cb_flag where
  | LATENCY_TRACKER_CB_NORMAL : latency_tracker_cb_flag
  | LATENCY_TRACKER_CB_TIMEOUT : latency_tracker_cb_flag
  | LATENCY_TRACKER_CB_GC : latency_tracker_cb_flag
  deriving DecidableEq, Repr

/-- Modelled from the spec: the result of `latency_tracker_event_in`
(`enum latency_tracker_event_in_ret` is declared in `latency_tracker.h`):
success, table full, or allocation failed. -/
inductive latency_tracker_event_in_ret where
  | LATENCY_TRACKER_OK : latency_tracker_event_in_ret
  | LATENCY_TRACKER_FULL : latency_tracker_event_in_ret
  | LATENCY_TRACKER_ERR : latency_tracker_event_in_ret
  deriving DecidableEq, Repr

/-- Modelled from the spec: the fields of `struct latency_tracker_event`
(declared in `latency_tracker.h`) that the example reads; `ref` is the
address of the event and identifies the reference. -/
structure latency_tracker_event where
  ref : Nat
  key : schedkey
  start_ts : Nat
  end_ts : Nat
  cb_flag : latency_tracker_cb_flag
  cb_out_id : Nat
  deriving DecidableEq, Repr

/-- The callbacks registered with the tracker. -/
inductive Callback where
  | offcpu_cb : Callback
  deriving DecidableEq, Repr

/-- Calls into the tracker and emissions made by the example, with their
arguments. -/
inductive Effect where
  | latency_tracker_event_in (key : schedkey) (thresh : Nat) (cb : Callback)
      (timeout : Nat) (dup_policy : Nat) (priv : Nat) : Effect
  | latency_tracker_event_out (key : schedkey) (id : Nat) : Effect
  | latency_tracker_get_event (key : schedkey) : Effect
  | latency_tracker_put_event (s : latency_tracker_event) : Effect
  | trace_offcpu_sched_switch (comm : List Char) (pid : Int) (delay : Nat)
      (flag : latency_tracker_cb_flag) (stack : List (Option Char)) : Effect
  | trace_offcpu_sched_wakeup (waker : task_struct) (stack : List (Option Char))
      (p : task_struct) (delta : Nat) (flag : Nat) : Effect
  | offcpu_handle_proc (priv : Nat) (data : latency_tracker_event) : Effect
  deriving DecidableEq

/-- Whether an effect is a tracepoint emission. -/
def Effect.is_record : Effect → Bool
  | .trace_offcpu_sched_switch .. => true
  | .trace_offcpu_sched_wakeup .. => true
  | _ => false

/-- Whether an effect is a call of `latency_tracker_put_event`. -/
def Effect.is_put : Effect → Bool
  | .latency_tracker_put_event _ => true
  | _ => false

/-- Whether an effect is a call of `latency_tracker_get_event`. -/
def Effect.is_get : Effect → Bool
  | .latency_tracker_get_event _ => true
  | _ => false

/-- Whether an effect is a call of `latency_tracker_event_in`. -/
def Effect.is_event_in : Effect → Bool
  | .latency_tracker_event_in .. => true
  | _ => false

/-! ## Module state -/

/-- Default of `usec_threshold`, `DEFAULT_USEC_OFFCPU_THRESH`. -/
def DEFAULT_USEC_OFFCPU_THRESH : Nat := 5 * 1000 * 1000

/-- Default of `usec_timeout`, `DEFAULT_USEC_OFFCPU_TIMEOUT`. -/
def DEFAULT_USEC_OFFCPU_TIMEOUT : Nat := 0

/-- The static variables of the module; `current_pid` is the array of
`NR_CPUS` entries. -/
structure State where
  current_pid : List Int
  usec_threshold : Nat
  usec_timeout : Nat
  cnt : Int
  deriving DecidableEq, Repr

/-- The static variables as initialised at load time, for `NR_CPUS` processors. -/
def State.init (NR_CPUS : Nat) : State :=
  { current_pid := List.replicate NR_CPUS 0
    usec_threshold := DEFAULT_USEC_OFFCPU_THRESH
    usec_timeout := DEFAULT_USEC_OFFCPU_TIMEOUT
    cnt := 0 }

/-! ## Callback and probes -/

/-- Callback `offcpu_cb(ptr)`, `data` being the event `ptr` points to: the
module state afterwards and the effects issued. -/
def offcpu_cb (cfg : Config) (k : Kernel) (st : State) (data : latency_tracker_event) :
    State × List Effect :=
  if data.cb_flag ≠ .LATENCY_TRACKER_CB_NORMAL then (st, [])
  else if data.cb_out_id = SCHED_EXIT_DIED then (st, [])
  else
    let delay := u64_sub data.end_ts data.start_ts / 1000
    let st1 := if cfg.SCHEDWORST then { st with usec_threshold := ulong cfg delay } else st
    match k.pid_task data.key.pid with
    | none => (st1, [])
    | some p =>
      let stacktxt := extract_stack cfg k p unwritten delay 0
      ({ st1 with cnt := wrap_int (st1.cnt + 1) },
        [Effect.trace_offcpu_sched_switch p.comm data.key.pid
            (u64_sub data.end_ts data.start_ts) data.cb_flag (stack_bytes stacktxt),
          Effect.offcpu_handle_proc k.priv data])

/-- Function `skip_thread(p)`. -/
def skip_thread (cfg : Config) (k : Kernel) (p : task_struct) : Int :=
  if cfg.URCUHT || cfg.RHASHTABLE then
    if p.flags &&& k.PF_KTHREAD ≠ 0 then 1
    else if p.flags &&& k.PF_WQ_WORKER ≠ 0 then 1
    else 0
  else 0

/-- The value of the expression `usec_threshold * 1000`: a product of
`unsigned long`, then widened to `u64`. -/
def thresh_ns (cfg : Config) (st : State) : Nat := u64 (ulong cfg (st.usec_threshold * 1000))

/-- The value of the expression `usec_timeout * 1000`. -/
def timeout_ns (cfg : Config) (st : State) : Nat := u64 (ulong cfg (st.usec_timeout * 1000))

/-- Probe `probe_sched_switch(ignore, prev, next)`; a null task is `none`.
The last argument is the value `latency_tracker_event_in` returns, which the
probe assigns to its local `ret` and does not read. The store
`current_pid[prev->on_cpu] = next->pid` is `List.set`, which leaves the array
as it is for an index outside of it. -/
def probe_sched_switch (cfg : Config) (k : Kernel) (st : State)
    (prev next : Option task_struct) (_ret : latency_tracker_event_in_ret) :
    State × List Effect :=
  match next, prev with
  | some next, some prev =>
    let st1 := { st with current_pid := st.current_pid.set prev.on_cpu next.pid }
    let thresh := thresh_ns cfg st
    let timeout := timeout_ns cfg st
    let ev_in :=
      if skip_thread cfg k prev = 0 then
        [Effect.latency_tracker_event_in ⟨prev.pid⟩ thresh Callback.offcpu_cb timeout 1 k.priv]
      else []
    let ev_out :=
      if skip_thread cfg k next = 0 then
        [Effect.latency_tracker_event_out ⟨next.pid⟩ SCHED_EXIT_NORMAL]
      else []
    (st1, ev_in ++ ev_out)
  | _, _ => (st, [])

/-- Probe `probe_sched_wakeup(ignore, p, success)`, run by the task
`current`; `s` is the value `latency_tracker_get_event` returns and `now` the
value `trace_clock_read64` returns, when they are called. The loop over the
`NR_CPUS` entries of `current_pid` is `List.any`. -/
def probe_sched_wakeup (cfg : Config) (k : Kernel) (st : State) (current p : task_struct)
    (_success : Int) (s : Option latency_tracker_event) (now : Nat) : List Effect :=
  if st.current_pid.any (fun c => c == p.pid) then []
  else
    let key : schedkey := ⟨p.pid⟩
    match s with
    | none => [Effect.latency_tracker_get_event key]
    | some s =>
      let delta := u64_sub now s.start_ts
      let rec_ :=
        if delta > thresh_ns cfg st then
          [Effect.trace_offcpu_sched_wakeup current
            (stack_bytes (extract_stack cfg k current unwritten 0 3)) p delta 0]
        else []
      [Effect.latency_tracker_get_event key] ++ rec_ ++ [Effect.latency_tracker_put_event s]

/-- Modelled from the spec: the tracker engine (`latency_tracker.c` is not
among the sources), reduced to what admission accounting needs: the maximum
table size, the keys of the open records (oldest first) and the skipped
count. -/
structure latency_tracker where
  max_events : Nat
  table : List schedkey
  skipped_count : Nat
  deriving DecidableEq, Repr

/-- Modelled from the spec: `event_in` inserts a record next to the records
already open, or fails with table-full when the table is at its maximum
size. The tracker counts every event it drops: with a capacity of 1 the
second of two `event_in` calls returns table-full and the skipped count
becomes 1. -/
def latency_tracker_event_in (t : latency_tracker) (key : schedkey) :
    latency_tracker × latency_tracker_event_in_ret :=
  if t.table.length < t.max_events then
    ({ t with table := t.table ++ [key] }, .LATENCY_TRACKER_OK)
  else ({ t with skipped_count := t.skipped_count + 1 }, .LATENCY_TRACKER_FULL)

/-- Modelled from the spec: `event_out` unlinks the oldest record of the key,
and is a no-op when there is none. -/
def latency_tracker_event_out (t : latency_tracker) (key : schedkey) : latency_tracker :=
  { t with table := t.table.erase key }

/-- A 64-bit build with frame pointers. -/
def cfg64 : Config :=
  { CONFIG_FRAME_POINTER := true, URCUHT := false, RHASHTABLE := false,
    SCHEDWORST := false, long_bits := .b64 }

/-- A 64-bit build on the URCU hash table, where kernel threads are skipped. -/
def cfg_urcu : Config :=
  { CONFIG_FRAME_POINTER := true, URCUHT := true, RHASHTABLE := false,
    SCHEDWORST := false, long_bits := .b64 }

/-- A task with pid 7. -/
def task7 : task_struct := { pid := 7, comm := ['s', 'h'], flags := 0, on_cpu := 0 }

/-- A task with pid 8. -/
def task8 : task_struct := { pid := 8, comm := ['l', 's'], flags := 0, on_cpu := 1 }

/-- A kernel thread with pid 2. -/
def kthread2 : task_struct :=
  { pid := 2, comm := ['k', 't'], flags := 0x00200000, on_cpu := 0 }

/-- A task with pid 9. -/
def task9 : task_struct := { pid := 9, comm := ['c', 'c'], flags := 0, on_cpu := 0 }

/-- A kernel in which tasks 7, 8 and 9 exist, every stack walk reports the
addresses 1, 2 (unreliable), 3 and 4, and an address `a` renders as the
letter `f` followed by `a` letters `x`. -/
def kern : Kernel :=
  { PF_KTHREAD := 0x00200000
    PF_WQ_WORKER := 0x00000020
    in_sched_functions := fun _ => false
    pS := fun a => Char.ofNat 102 :: List.replicate a (Char.ofNat 120)
    pid_task := fun pid =>
      if pid = 7 then some task7 else if pid = 8 then some task8
      else if pid = 9 then some task9 else none
    dump_trace := fun _ => [(1, 1), (2, 0), (3, 1), (4, 1)]
    priv := 0 }

/-- A kernel like `kern` whose stack walks report 40 reliable addresses, each
rendered in 46 characters. -/
def kern_deep : Kernel :=
  { kern with
    pS := fun _ => List.replicate 46 (Char.ofNat 120)
    dump_trace := fun _ => List.replicate 40 (5, 1) }

/-- An empty trace over an array of 32 entries. -/
def trace0 : stack_trace := { nr_entries := 0, max_entries := 32, entries := fun _ => 0, skip := 0 }

/-- The module state on two processors with the largest `usec_threshold` of
a 64-bit build. -/
def state_max : State := { State.init 2 with usec_threshold := 18446744073709551615 }

/-- The module state on two processors after `INT_MAX` alerts. -/
def state_full : State := { State.init 2 with cnt := 2147483647 }

/-- An open event of task 8, started at time 0. -/
def event8 : latency_tracker_event :=
  { ref := 2, key := ⟨8⟩, start_ts := 0, end_ts := 0,
    cb_flag := .LATENCY_TRACKER_CB_NORMAL, cb_out_id := SCHED_EXIT_NORMAL }

/-- An event of task 7 closed normally after 150 ms. -/
def event7 : latency_tracker_event :=
  { ref := 1, key := ⟨7⟩, start_ts := 0, end_ts := 150000000,
    cb_flag := .LATENCY_TRACKER_CB_NORMAL, cb_out_id := SCHED_EXIT_NORMAL }

/-! ## Stack capture: `__save_stack_address` -/

theorem save_stack_address_cases (cfg : Config) (k : Kernel) (trace : stack_trace)
    (addr : Nat) (reliable nosched : Bool) :
    (accepted cfg k addr reliable nosched = false ∧
        __save_stack_address cfg k trace addr reliable nosched = trace) ∨
      (accepted cfg k addr reliable nosched = true ∧ 0 < trace.skip ∧
        __save_stack_address cfg k trace addr reliable nosched =
          { trace with skip := trace.skip - 1 }) ∨
      (accepted cfg k addr reliable nosched = true ∧ trace.skip ≤ 0 ∧
        trace.max_entries ≤ trace.nr_entries ∧
        __save_stack_address cfg k trace addr reliable nosched = trace) ∨
      (accepted cfg k addr reliable nosched = true ∧ trace.skip ≤ 0 ∧
        trace.nr_entries < trace.max_entries ∧
        __save_stack_address cfg k trace addr reliable nosched =
          { trace with
            entries := Function.update trace.entries trace.nr_entries addr
            nr_entries := trace.nr_entries + 1 }) := by
  unfold __save_stack_address accepted
  by_cases h1 : (cfg.CONFIG_FRAME_POINTER && !reliable) = true
  · left; simp [h1]
  · by_cases h2 : (nosched && k.in_sched_functions addr) = true
    · left; simp [h1, h2]
    · right
      have e1 : (cfg.CONFIG_FRAME_POINTER && !reliable) = false := by simpa using h1
      have e2 : (nosched && k.in_sched_functions addr) = false := by simpa using h2
      rw [e1, e2]
      by_cases h3 : trace.skip > 0
      · left; simp [h3]
      · right
        have h3b : trace.skip ≤ 0 := not_lt.mp h3
        by_cases h4 : trace.nr_entries < trace.max_entries
        · right; simp [h3, h3b, h4]
        · left; simp [h3, h3b, h4, not_lt.mp h4]

theorem map_update_range (f : Nat → Nat) (n a : Nat) :
    (List.range n).map (Function.update f n a) = (List.range n).map f := by
  apply List.map_congr_left
  intro i hi
  have : i ≠ n := Nat.ne_of_lt (List.mem_range.mp hi)
  exact Function.update_noteq this a f

theorem save_seq_entries (cfg : Config) (k : Kernel) (calls : List (Nat × Bool × Bool)) :
    ∀ trace : stack_trace, trace.skip ≤ 0 → trace.nr_entries ≤ trace.max_entries →
      ((List.range (save_seq cfg k trace calls).nr_entries).map
          (save_seq cfg k trace calls).entries =
        ((List.range trace.nr_entries).map trace.entries ++ accepted_seq cfg k calls).take
          trace.max_entries) ∧
      (save_seq cfg k trace calls).max_entries = trace.max_entries ∧
      (save_seq cfg k trace calls).skip = trace.skip := by
  induction calls with
  | nil =>
    intro trace _ hn
    simp [save_seq, accepted_seq, List.take_of_length_le, hn]
  | cons c cs ih =>
    intro trace hs hn
    have step : save_seq cfg k trace (c :: cs) =
        save_seq cfg k (__save_stack_address cfg k trace c.1 c.2.1 c.2.2) cs := by
      simp [save_seq]
    rw [step]
    rcases save_stack_address_cases cfg k trace c.1 c.2.1 c.2.2 with
      ⟨ha, he⟩ | ⟨_, hpos, _⟩ | ⟨ha, _, hfull, he⟩ | ⟨ha, _, hlt, he⟩
    · rw [he]
      have : accepted_seq cfg k (c :: cs) = accepted_seq cfg k cs := by
        simp [accepted_seq, List.filter_cons, ha]
      rw [this]
      exact ih trace hs hn
    · omega
    · rw [he]
      have hacc : accepted_seq cfg k (c :: cs) = c.1 :: accepted_seq cfg k cs := by
        simp [accepted_seq, List.filter_cons, ha]
      rw [hacc]
      obtain ⟨i1, i2, i3⟩ := ih trace hs hn
      refine ⟨?_, i2, i3⟩
      rw [i1]
      have hlen : trace.max_entries ≤ ((List.range trace.nr_entries).map trace.entries).length := by
        simpa using hfull
      rw [List.take_append_of_le_length hlen, List.take_append_of_le_length hlen]
    · rw [he]
      have hacc : accepted_seq cfg k (c :: cs) = c.1 :: accepted_seq cfg k cs := by
        simp [accepted_seq, List.filter_cons, ha]
      rw [hacc]
      obtain ⟨i1, i2, i3⟩ := ih
        { trace with
          entries := Function.update trace.entries trace.nr_entries c.1
          nr_entries := trace.nr_entries + 1 } hs hlt
      refine ⟨?_, i2, i3⟩
      rw [i1]
      simp only [List.range_succ, List.map_append, List.map_cons, List.map_nil,
        Function.update_same, map_update_range, List.append_assoc, List.singleton_append]

/-- C10. One call of `__save_stack_address` on a trace with
`nr_entries <= max_entries` either leaves `entries` and `nr_entries` as they
were (the address is rejected as unreliable or scheduler-internal; or
`skip > 0`, and then `skip` decreases by exactly 1; or the array is full) or
stores the address at index `nr_entries` and increases `nr_entries` by
exactly 1; in every case `nr_entries <= max_entries` still holds. Hence after
any sequence of calls from `nr_entries = 0` and `skip = 0` the stored entries
are the first `max_entries` accepted addresses, in call order. -/
theorem save_stack_address_keeps_bound (cfg : Config) (k : Kernel) (trace : stack_trace)
    (addr : Nat) (reliable nosched : Bool) (h : trace.nr_entries ≤ trace.max_entries) :
    (__save_stack_address cfg k trace addr reliable nosched).nr_entries ≤
        (__save_stack_address cfg k trace addr reliable nosched).max_entries ∧
      (__save_stack_address cfg k trace addr reliable nosched).max_entries =
        trace.max_entries ∧
      (((__save_stack_address cfg k trace addr reliable nosched).entries = trace.entries ∧
          (__save_stack_address cfg k trace addr reliable nosched).nr_entries =
            trace.nr_entries ∧
          ((accepted cfg k addr reliable nosched = false ∧
              (__save_stack_address cfg k trace addr reliable nosched).skip = trace.skip) ∨
            (0 < trace.skip ∧
              (__save_stack_address cfg k trace addr reliable nosched).skip =
                trace.skip - 1) ∨
            (trace.nr_entries = trace.max_entries ∧
              (__save_stack_address cfg k trace addr reliable nosched).skip = trace.skip))) ∨
        (accepted cfg k addr reliable nosched = true ∧ trace.skip ≤ 0 ∧
          trace.nr_entries < trace.max_entries ∧
          (__save_stack_address cfg k trace addr reliable nosched).entries =
            Function.update trace.entries trace.nr_entries addr ∧
          (__save_stack_address cfg k trace addr reliable nosched).nr_entries =
            trace.nr_entries + 1 ∧
          (__save_stack_address cfg k trace addr reliable nosched).skip = trace.skip)) ∧
      ∀ (calls : List (Nat × Bool × Bool)) (entries : Nat → Nat) (max_entries : Nat),
        (List.range
              (save_seq cfg k ⟨0, max_entries, entries, 0⟩ calls).nr_entries).map
            (save_seq cfg k ⟨0, max_entries, entries, 0⟩ calls).entries =
          (accepted_seq cfg k calls).take max_entries := by
  refine ⟨?_, ?_, ?_, ?_⟩
  · rcases save_stack_address_cases cfg k trace addr reliable nosched with
      ⟨_, he⟩ | ⟨_, _, he⟩ | ⟨_, _, _, he⟩ | ⟨_, _, hlt, he⟩ <;> rw [he]
    · exact h
    · exact h
    · exact h
    · exact hlt
  · rcases save_stack_address_cases cfg k trace addr reliable nosched with
      ⟨_, he⟩ | ⟨_, _, he⟩ | ⟨_, _, _, he⟩ | ⟨_, _, hlt, he⟩ <;> rw [he]
  · rcases save_stack_address_cases cfg k trace addr reliable nosched with
      ⟨ha, he⟩ | ⟨_, hpos, he⟩ | ⟨_, _, hfull, he⟩ | ⟨ha, hs, hlt, he⟩
    · left; rw [he]; exact ⟨rfl, rfl, Or.inl ⟨ha, rfl⟩⟩
    · left; rw [he]; exact ⟨rfl, rfl, Or.inr (Or.inl ⟨hpos, rfl⟩)⟩
    · left; rw [he]; exact ⟨rfl, rfl, Or.inr (Or.inr ⟨le_antisymm h hfull, rfl⟩)⟩
    · right; rw [he]; exact ⟨ha, hs, hlt, rfl, rfl, rfl⟩
  · intro calls entries max_entries
    have := (save_seq_entries cfg k calls ⟨0, max_entries, entries, 0⟩ (le_refl _)
      (Nat.zero_le _)).1
    simpa using this

/-! ## Stack text: bounds of `extract_stack` -/

theorem size_t_small (cfg : Config) (x : Int) (h0 : 0 ≤ x) (h1 : x ≤ 256) :
    ((size_t cfg x : Nat) : Int) = x := by
  unfold size_t
  have hb : (256 : Int) < (2 : Int) ^ cfg.long_bits.bits := by
    cases cfg.long_bits <;> simp [LongBits.bits]
  rw [Int.emod_eq_of_lt h0 (by omega)]
  exact Int.toNat_of_nonneg h0

theorem frame_text_length (k : Kernel) (addr : Nat) : (frame_text k addr).length ≤ 47 := by
  unfold frame_text
  refine le_trans (List.takeWhile_sublist _).length_le ?_
  simp [List.length_take]

theorem frame_text_no_nul (k : Kernel) (addr : Nat) : ∀ c ∈ frame_text k addr, c ≠ NUL := by
  intro c hc
  have := List.mem_takeWhile_imp hc
  simpa using this

theorem extract_stack_loop_eq (cfg : Config) (k : Kernel) (trace : stack_trace) (skip : Int) :
    ∀ (n i : Nat) (j : Int),
      extract_stack_loop cfg k trace skip n i j =
        write_texts cfg
          (((List.range' i n).filter (fun (x : Nat) => decide (skip ≤ (x : Int)))).map
            (fun x => frame_text k (trace.entries x))) j := by
  intro n
  induction n with
  | zero => intro i j; simp [extract_stack_loop, write_texts]
  | succ n ih =>
    intro i j
    rw [List.range'_succ, extract_stack_loop]
    by_cases h : (i : Int) < skip
    · have h2 : ¬ skip ≤ (i : Int) := not_le.mpr h
      simp only [h, if_true, List.filter_cons, h2, decide_False, Bool.false_eq_true, if_false]
      exact ih (i + 1) j
    · have h2 : skip ≤ (i : Int) := not_lt.mp h
      simp only [h, if_false, List.filter_cons, h2, decide_True, if_true, List.map_cons,
        write_texts]
      rw [ih (i + 1)]

theorem extract_stack_calls_eq (cfg : Config) (k : Kernel) (p : task_struct) (skip : Int) :
    extract_stack_calls cfg k p skip =
      write_texts cfg (frame_texts k (captured cfg k p) skip) 0 := by
  unfold extract_stack_calls frame_texts
  rw [extract_stack_loop_eq, List.range_eq_range']

theorem frame_texts_length (k : Kernel) (trace : stack_trace) (skip : Int) :
    ∀ t ∈ frame_texts k trace skip, t.length ≤ 47 := by
  intro t ht
  unfold frame_texts at ht
  obtain ⟨i, _, rfl⟩ := List.mem_map.mp ht
  exact frame_text_length k _

theorem write_texts_bounds (cfg : Config) :
    ∀ (ts : List (List Char)) (j : Int), 0 ≤ j → j ≤ 256 → (∀ t ∈ ts, t.length ≤ 47) →
      ∀ c ∈ write_texts cfg ts j,
        0 ≤ c.off ∧ c.off ≤ 256 ∧ (c.size : Int) = 256 - c.off ∧ c.text.length ≤ 47 := by
  intro ts
  induction ts with
  | nil => intro j _ _ _ c hc; simp [write_texts] at hc
  | cons t ts ih =>
    intro j h0 h1 hlen c hc
    have hsz : ((size_t cfg (MAX_STACK_TXT - j) : Nat) : Int) = 256 - j :=
      size_t_small cfg _ (by unfold MAX_STACK_TXT; omega) (by unfold MAX_STACK_TXT; omega)
    have ht : t.length ≤ 47 := hlen t (List.mem_cons_self _ _)
    have hhead : ∀ c : snprintf_call, c = ⟨j, size_t cfg (MAX_STACK_TXT - j), t⟩ →
        0 ≤ c.off ∧ c.off ≤ 256 ∧ (c.size : Int) = 256 - c.off ∧ c.text.length ≤ 47 := by
      intro c hc
      subst hc
      exact ⟨h0, h1, hsz, ht⟩
    unfold write_texts at hc
    by_cases hx : MAX_STACK_TXT - (j + (t.length : Int)) < 0
    · rw [if_pos hx] at hc
      exact hhead c (List.mem_singleton.mp hc)
    · rw [if_neg hx] at hc
      rcases List.mem_cons.mp hc with hc | hc
      · exact hhead c hc
      · refine ih (j + t.length) (by omega) ?_ (fun u hu => hlen u (List.mem_cons_of_mem _ hu))
          c hc
        unfold MAX_STACK_TXT at hx
        omega

theorem snprintf_outside (m : Mem) (off : Int) (size : Nat) (text : List Char)
    (h0 : 0 ≤ off) (hs : (size : Int) = 256 - off) (a : Int) (ha : a < 0 ∨ 256 ≤ a) :
    snprintf m off size text a = m a := by
  unfold snprintf
  by_cases hz : size = 0
  · simp [hz]
  · rw [if_neg hz]
    have hmin : min text.length (size - 1) ≤ size - 1 := Nat.min_le_right _ _
    have c1 : ¬ (off ≤ a ∧ a < off + ((min text.length (size - 1) : Nat) : Int)) := by omega
    have c2 : ¬ (a = off + ((min text.length (size - 1) : Nat) : Int)) := by omega
    simp only [c1, c2, if_false]

theorem run_calls_outside (a : Int) (ha : a < 0 ∨ 256 ≤ a) :
    ∀ (calls : List snprintf_call) (m : Mem),
      (∀ c ∈ calls, 0 ≤ c.off ∧ c.off ≤ 256 ∧ (c.size : Int) = 256 - c.off ∧
        c.text.length ≤ 47) →
      run_calls m calls a = m a := by
  intro calls
  induction calls with
  | nil => intro m _; rfl
  | cons c cs ih =>
    intro m h
    have hc := h c (List.mem_cons_self _ _)
    have : run_calls m (c :: cs) = run_calls (snprintf m c.off c.size c.text) cs := by
      simp [run_calls]
    rw [this, ih _ (fun d hd => h d (List.mem_cons_of_mem _ hd))]
    exact snprintf_outside m c.off c.size c.text hc.1 hc.2.2.1 a ha

theorem captured_nr_entries (cfg : Config) (k : Kernel) (p : task_struct) :
    (captured cfg k p).nr_entries ≤ 32 := by
  have key : ∀ (calls : List (Nat × Int)) (t : stack_trace),
      t.nr_entries ≤ t.max_entries →
        (save_all cfg k t calls).nr_entries ≤ (save_all cfg k t calls).max_entries ∧
          (save_all cfg k t calls).max_entries = t.max_entries := by
    intro calls
    induction calls with
    | nil => intro t ht; exact ⟨ht, rfl⟩
    | cons c cs ih =>
      intro t ht
      have step : save_all cfg k t (c :: cs) =
          save_all cfg k (save_stack_address cfg k t c.1 c.2) cs := by
        simp [save_all]
      rw [step]
      unfold save_stack_address
      rcases save_stack_address_cases cfg k t c.1 (decide (c.2 ≠ 0)) false with
        ⟨_, he⟩ | ⟨_, _, he⟩ | ⟨_, _, _, he⟩ | ⟨_, _, hlt, he⟩ <;> rw [he]
      · exact ih t ht
      · exact ih _ ht
      · exact ih t ht
      · exact ih _ hlt
  obtain ⟨h1, h2⟩ := key (k.dump_trace p) ⟨0, 32, fun _ => 0, 0⟩ (Nat.zero_le _)
  unfold captured
  rw [h2] at h1
  exact h1

/-- C5. In `extract_stack` the captured trace has at most 32 entries and each
frame text at most 47 characters; at every `snprintf` on `stacktxt` the
offset `j` satisfies `0 <= j <= 256` and the size passed is `256 - j`, which
is not negative (the conversion to `size_t` does not wrap); and every byte
outside the 256 bytes of the buffer is left as it was. -/
theorem extract_stack_within_buffer (cfg : Config) (k : Kernel) (p : task_struct)
    (skip : Int) :
    (captured cfg k p).nr_entries ≤ 32 ∧
      (∀ c ∈ extract_stack_calls cfg k p skip,
        0 ≤ c.off ∧ c.off ≤ MAX_STACK_TXT ∧ (c.size : Int) = MAX_STACK_TXT - c.off ∧
          0 ≤ MAX_STACK_TXT - c.off ∧ c.text.length ≤ 47) ∧
      ∀ (stacktxt : Mem) (delay : Nat) (a : Int), (a < 0 ∨ MAX_STACK_TXT ≤ a) →
        extract_stack cfg k p stacktxt delay skip a = stacktxt a := by
  have hb : ∀ c ∈ extract_stack_calls cfg k p skip,
      0 ≤ c.off ∧ c.off ≤ 256 ∧ (c.size : Int) = 256 - c.off ∧ c.text.length ≤ 47 := by
    rw [extract_stack_calls_eq]
    exact write_texts_bounds cfg _ 0 (le_refl _) (by norm_num) (frame_texts_length k _ skip)
  refine ⟨captured_nr_entries cfg k p, ?_, ?_⟩
  · intro c hc
    obtain ⟨h1, h2, h3, h4⟩ := hb c hc
    unfold MAX_STACK_TXT
    exact ⟨h1, h2, h3, by omega, h4⟩
  · intro stacktxt delay a ha
    unfold extract_stack
    exact run_calls_outside a (by unfold MAX_STACK_TXT at ha; exact ha) _ _ hb

/-! ## Stack text: contents written by `extract_stack` -/

theorem holds_text_frozen (m : Mem) (pre rest : List Char) (h : holds_text m pre)
    (hl : 255 ≤ pre.length) : holds_text m (pre ++ rest) := by
  obtain ⟨h1, h2⟩ := h
  have e1 : min pre.length 255 = 255 := by omega
  have e2 : min (pre ++ rest).length 255 = 255 := by
    rw [List.length_append]; omega
  refine ⟨?_, ?_⟩
  · intro i hi
    rw [e2] at hi
    rw [h1 i (by omega), List.getElem?_append_left (by omega)]
  · rw [e2]
    rw [e1] at h2
    exact h2

theorem holds_text_snprintf (m : Mem) (pre t : List Char) (size : Nat)
    (hl : pre.length ≤ 256) (hs : (size : Int) = 256 - (pre.length : Int))
    (h : pre = [] ∨ holds_text m pre) :
    holds_text (snprintf m (pre.length : Int) size t) (pre ++ t) := by
  by_cases hz : size = 0
  · have hlen : pre.length = 256 := by omega
    have hp : holds_text m pre := by
      rcases h with h | h
      · subst h
        simp at hlen
      · exact h
    have : snprintf m (pre.length : Int) size t = m := by
      unfold snprintf
      rw [if_pos hz]
    rw [this]
    exact holds_text_frozen m pre t hp (by omega)
  · have hL : min (pre ++ t).length 255 = pre.length + min t.length (size - 1) := by
      rw [List.length_append]; omega
    unfold holds_text
    rw [hL]
    refine ⟨?_, ?_⟩
    · intro i hi
      unfold snprintf
      rw [if_neg hz]
      by_cases hlt : i < pre.length
      · have c1 : ¬ ((pre.length : Int) ≤ (i : Int) ∧
            (i : Int) < (pre.length : Int) + ((min t.length (size - 1) : Nat) : Int)) := by
          omega
        have c2 : ¬ ((i : Int) = (pre.length : Int) + ((min t.length (size - 1) : Nat) : Int)) := by
          omega
        simp only [c1, c2, if_false]
        rw [List.getElem?_append_left hlt]
        rcases h with h | h
        · subst h
          simp at hlt
        · exact h.1 i (by omega)
      · have c1 : (pre.length : Int) ≤ (i : Int) ∧
            (i : Int) < (pre.length : Int) + ((min t.length (size - 1) : Nat) : Int) := by
          omega
        simp only [c1, and_self, if_true]
        rw [List.getElem?_append_right (by omega)]
        have e : ((i : Int) - (pre.length : Int)).toNat = i - pre.length := by omega
        rw [e]
    · unfold snprintf
      rw [if_neg hz]
      have c2 : ((pre.length + min t.length (size - 1) : Nat) : Int) =
          (pre.length : Int) + ((min t.length (size - 1) : Nat) : Int) := by
        omega
      rw [c2]
      simp only [lt_self_iff_false, and_false, if_false, if_true]

theorem write_texts_holds (cfg : Config) :
    ∀ (ts : List (List Char)) (pre : List Char) (m : Mem), ts ≠ [] → pre.length ≤ 256 →
      (pre = [] ∨ holds_text m pre) →
      holds_text (run_calls m (write_texts cfg ts (pre.length : Int))) (pre ++ ts.flatten) := by
  intro ts
  induction ts with
  | nil => intro pre m hne; exact absurd rfl hne
  | cons t ts ih =>
    intro pre m _ hl h
    have hsz : ((size_t cfg (MAX_STACK_TXT - (pre.length : Int)) : Nat) : Int) =
        256 - (pre.length : Int) :=
      size_t_small cfg _ (by unfold MAX_STACK_TXT; omega) (by unfold MAX_STACK_TXT; omega)
    have h1 := holds_text_snprintf m pre t _ hl hsz h
    unfold write_texts
    by_cases hx : MAX_STACK_TXT - ((pre.length : Int) + (t.length : Int)) < 0
    · rw [if_pos hx]
      have : run_calls m [⟨(pre.length : Int), size_t cfg (MAX_STACK_TXT - (pre.length : Int)), t⟩] =
          snprintf m (pre.length : Int) (size_t cfg (MAX_STACK_TXT - (pre.length : Int))) t := by
        simp [run_calls]
      rw [this, List.flatten_cons, ← List.append_assoc]
      refine holds_text_frozen _ _ _ h1 ?_
      rw [List.length_append]
      unfold MAX_STACK_TXT at hx
      omega
    · rw [if_neg hx]
      have : run_calls m (⟨(pre.length : Int), size_t cfg (MAX_STACK_TXT - (pre.length : Int)), t⟩ ::
            write_texts cfg ts ((pre.length : Int) + (t.length : Int))) =
          run_calls (snprintf m (pre.length : Int)
            (size_t cfg (MAX_STACK_TXT - (pre.length : Int))) t)
            (write_texts cfg ts ((pre.length : Int) + (t.length : Int))) := by
        simp [run_calls]
      rw [this, List.flatten_cons, ← List.append_assoc]
      by_cases hts : ts = []
      · subst hts
        simpa [write_texts, run_calls] using h1
      · have hl2 : (pre ++ t).length ≤ 256 := by
          rw [List.length_append]
          unfold MAX_STACK_TXT at hx
          omega
        have := ih (pre ++ t) _ hts hl2 (Or.inr h1)
        rw [List.length_append] at this
        push_cast at this
        exact this

theorem frame_texts_ne_nil_iff (k : Kernel) (trace : stack_trace) (skip : Int) :
    frame_texts k trace skip ≠ [] ↔ ∃ i : Nat, i < trace.nr_entries ∧ skip ≤ (i : Int) := by
  unfold frame_texts
  constructor
  · intro h
    have h2 : (List.range trace.nr_entries).filter (fun (i : Nat) => decide (skip ≤ (i : Int))) ≠ [] := by
      intro e
      rw [e] at h
      exact h rfl
    obtain ⟨i, hi⟩ := List.exists_mem_of_ne_nil _ h2
    rw [List.mem_filter] at hi
    exact ⟨i, List.mem_range.mp hi.1, by simpa using hi.2⟩
  · rintro ⟨i, hi, hs⟩ e
    have hm : i ∈ (List.range trace.nr_entries).filter (fun (i : Nat) => decide (skip ≤ (i : Int))) := by
      rw [List.mem_filter]
      exact ⟨List.mem_range.mpr hi, by simpa using hs⟩
    have := List.mem_map_of_mem (fun i => frame_text k (trace.entries i)) hm
    rw [e] at this
    simp at this

/-- C9. With `texts` the frame texts of the captured entries with index at
least `skip`, in order, and `L` the length of their concatenation: if some
entry has an index at least `skip`, the buffer afterwards holds the first
`min L 255` characters of the concatenation, none of them NUL, followed by
a NUL; if no entry has (empty trace, or `skip` at least `nr_entries`), the
buffer is exactly as before. -/
theorem extract_stack_contents (cfg : Config) (k : Kernel) (p : task_struct)
    (stacktxt : Mem) (delay : Nat) (skip : Int) :
    ((∃ i : Nat, i < (captured cfg k p).nr_entries ∧ skip ≤ (i : Int)) →
        (∀ i : Nat, i < min (frame_texts k (captured cfg k p) skip).flatten.length 255 →
          extract_stack cfg k p stacktxt delay skip (i : Int) =
            (frame_texts k (captured cfg k p) skip).flatten[i]?) ∧
        extract_stack cfg k p stacktxt delay skip
            ((min (frame_texts k (captured cfg k p) skip).flatten.length 255 : Nat) : Int) =
          some NUL ∧
        ∀ c ∈ (frame_texts k (captured cfg k p) skip).flatten, c ≠ NUL) ∧
      ((¬ ∃ i : Nat, i < (captured cfg k p).nr_entries ∧ skip ≤ (i : Int)) →
        extract_stack cfg k p stacktxt delay skip = stacktxt) := by
  constructor
  · intro hex
    have hne := (frame_texts_ne_nil_iff k (captured cfg k p) skip).mpr hex
    have main := write_texts_holds cfg _ [] stacktxt hne (by simp) (Or.inl rfl)
    simp only [List.length_nil, Nat.cast_zero, List.nil_append] at main
    rw [← extract_stack_calls_eq] at main
    refine ⟨main.1, main.2, ?_⟩
    intro c hc
    obtain ⟨t, ht, hct⟩ := List.mem_flatten.mp hc
    unfold frame_texts at ht
    obtain ⟨i, _, rfl⟩ := List.mem_map.mp ht
    exact frame_text_no_nul k _ c hct
  · intro hno
    have hnil : frame_texts k (captured cfg k p) skip = [] := by
      by_contra hne
      exact hno ((frame_texts_ne_nil_iff k (captured cfg k p) skip).mp hne)
    unfold extract_stack
    rw [extract_stack_calls_eq, hnil]
    rfl

/-! ## The probes -/

theorem u64_sub_eq (a b : Nat) :
    ((u64_sub a b : Nat) : Int) = ((a : Int) - (b : Int)) % 18446744073709551616 := by
  unfold u64_sub
  norm_num
  omega

theorem probe_sched_switch_some (cfg : Config) (k : Kernel) (st : State)
    (prev next : task_struct) (ret : latency_tracker_event_in_ret) :
    (probe_sched_switch cfg k st (some prev) (some next) ret).2 =
      (if skip_thread cfg k prev = 0 then
          [Effect.latency_tracker_event_in ⟨prev.pid⟩ (thresh_ns cfg st) Callback.offcpu_cb
            (timeout_ns cfg st) 1 k.priv]
        else []) ++
        (if skip_thread cfg k next = 0 then
          [Effect.latency_tracker_event_out ⟨next.pid⟩ SCHED_EXIT_NORMAL]
        else []) :=
  rfl

/-- The effects of `probe_sched_switch`: with both tasks present, one
`latency_tracker_event_in` keyed by the pid of `prev`, with the literal 1 as
its seventh argument, unless `skip_thread(prev)` holds, then one
`latency_tracker_event_out` keyed by the pid of `next` unless
`skip_thread(next)` holds; with a null task, nothing, and the state as it
was. -/
theorem probe_sched_switch_effects (cfg : Config) (k : Kernel) (st : State)
    (prev next : task_struct) (ret : latency_tracker_event_in_ret) :
    (probe_sched_switch cfg k st (some prev) (some next) ret).2 =
        (if skip_thread cfg k prev = 0 then
            [Effect.latency_tracker_event_in ⟨prev.pid⟩ (thresh_ns cfg st) Callback.offcpu_cb
              (timeout_ns cfg st) 1 k.priv]
          else []) ++
          (if skip_thread cfg k next = 0 then
            [Effect.latency_tracker_event_out ⟨next.pid⟩ SCHED_EXIT_NORMAL]
          else []) ∧
      (∀ other : Option task_struct, probe_sched_switch cfg k st none other ret = (st, [])) ∧
      (∀ other : Option task_struct, probe_sched_switch cfg k st other none ret = (st, [])) := by
  refine ⟨probe_sched_switch_some cfg k st prev next ret, ?_, ?_⟩
  · intro other
    cases other <;> rfl
  · intro other
    cases other <;> rfl

/-- C3. In `probe_sched_wakeup`, `latency_tracker_get_event` is called at
most once; when it is called and returns an event, that same event is
released by exactly one `latency_tracker_put_event`, issued after the lookup
as the last effect, whether or not a wakeup record is emitted; when it
returns no event, or is not called, `latency_tracker_put_event` is not
called. -/
theorem probe_sched_wakeup_releases (cfg : Config) (k : Kernel) (st : State)
    (current p : task_struct) (success : Int) (e : latency_tracker_event) (now : Nat) :
    ((probe_sched_wakeup cfg k st current p success (some e) now).filter Effect.is_get).length
        ≤ 1 ∧
      ((probe_sched_wakeup cfg k st current p success (some e) now).filter Effect.is_put =
        if (probe_sched_wakeup cfg k st current p success (some e) now).any Effect.is_get then
          [Effect.latency_tracker_put_event e]
        else []) ∧
      ((probe_sched_wakeup cfg k st current p success (some e) now).getLast? =
        if (probe_sched_wakeup cfg k st current p success (some e) now).any Effect.is_get then
          some (Effect.latency_tracker_put_event e)
        else none) ∧
      ((probe_sched_wakeup cfg k st current p success (some e) now).head? =
        if (probe_sched_wakeup cfg k st current p success (some e) now).any Effect.is_get then
          some (Effect.latency_tracker_get_event ⟨p.pid⟩)
        else none) ∧
      ((probe_sched_wakeup cfg k st current p success none now).filter Effect.is_get).length
        ≤ 1 ∧
      (probe_sched_wakeup cfg k st current p success none now).filter Effect.is_put = [] := by
  unfold probe_sched_wakeup
  by_cases hg : (st.current_pid.any fun c => c == p.pid) = true
  · simp [hg]
  · by_cases hd : u64_sub now e.start_ts > thresh_ns cfg st
    · simp [hg, hd, Effect.is_get, Effect.is_put, List.filter_cons]
    · simp [hg, hd, Effect.is_get, Effect.is_put, List.filter_cons]

/-- C7. If the pid of the woken task equals an entry of `current_pid`,
`probe_sched_wakeup` returns with no effect at all: no
`latency_tracker_get_event`, no record, no `latency_tracker_put_event`. -/
theorem probe_sched_wakeup_running (cfg : Config) (k : Kernel) (st : State)
    (current p : task_struct) (success : Int) (s : Option latency_tracker_event) (now : Nat)
    (h : p.pid ∈ st.current_pid) :
    probe_sched_wakeup cfg k st current p success s now = [] := by
  unfold probe_sched_wakeup
  have hg : (st.current_pid.any fun c => c == p.pid) = true := by
    rw [List.any_eq_true]
    exact ⟨p.pid, h, by simp⟩
  simp [hg]

/-- Task 8 is recorded as running on processor 0: its wakeup has no effect. -/
theorem probe_sched_wakeup_running_witness :
    (8 : Int) ∈ [(8 : Int), 0] ∧
      probe_sched_wakeup cfg64 kern { State.init 2 with current_pid := [8, 0] } task7 task8 1
        (some event8) 1000 = [] :=
  ⟨by decide, probe_sched_wakeup_running cfg64 kern _ task7 task8 1 (some event8) 1000
    (by decide)⟩

theorem thresh_ns_eq (cfg : Config) (st : State) :
    thresh_ns cfg st = (st.usec_threshold * 1000) % 2 ^ cfg.long_bits.bits := by
  unfold thresh_ns u64 ulong
  cases cfg.long_bits <;> simp only [LongBits.bits] <;> omega

theorem timeout_ns_eq (cfg : Config) (st : State) :
    timeout_ns cfg st = (st.usec_timeout * 1000) % 2 ^ cfg.long_bits.bits := by
  unfold timeout_ns u64 ulong
  cases cfg.long_bits <;> simp only [LongBits.bits] <;> omega

/-- C6, as the code has it. Whenever `usec_threshold x 1000` and
`usec_timeout x 1000` fit an `unsigned long` (are below
`2 ^ BITS_PER_LONG`), `probe_sched_switch` passes to
`latency_tracker_event_in` a threshold of exactly `usec_threshold x 1000` and
a timeout of exactly `usec_timeout x 1000`. With the defaults and a 64-bit
`unsigned long` this is a threshold of 5,000,000,000 ns and a timeout of 0. -/
theorem probe_sched_switch_units (cfg : Config) (k : Kernel) (st : State)
    (prev next : task_struct) (ret : latency_tracker_event_in_ret)
    (h1 : st.usec_threshold * 1000 < 2 ^ cfg.long_bits.bits)
    (h2 : st.usec_timeout * 1000 < 2 ^ cfg.long_bits.bits) :
    ((probe_sched_switch cfg k st (some prev) (some next) ret).2.filter Effect.is_event_in =
        if skip_thread cfg k prev = 0 then
          [Effect.latency_tracker_event_in ⟨prev.pid⟩ (st.usec_threshold * 1000)
            Callback.offcpu_cb (st.usec_timeout * 1000) 1 k.priv]
        else []) ∧
      ∀ (c : Config) (n : Nat), c.long_bits = LongBits.b64 →
        thresh_ns c (State.init n) = 5000000000 ∧ timeout_ns c (State.init n) = 0 := by
  refine ⟨?_, ?_⟩
  · have e1 : thresh_ns cfg st = st.usec_threshold * 1000 := by
      rw [thresh_ns_eq, Nat.mod_eq_of_lt h1]
    have e2 : timeout_ns cfg st = st.usec_timeout * 1000 := by
      rw [timeout_ns_eq, Nat.mod_eq_of_lt h2]
    rw [probe_sched_switch_some cfg k st prev next ret, e1, e2]
    by_cases a : skip_thread cfg k prev = 0 <;> by_cases b : skip_thread cfg k next = 0 <;>
      simp [a, b, Effect.is_event_in, List.filter_cons]
  · intro c n hc
    rw [thresh_ns_eq, timeout_ns_eq, hc]
    simp only [LongBits.bits, State.init, DEFAULT_USEC_OFFCPU_THRESH,
      DEFAULT_USEC_OFFCPU_TIMEOUT]
    constructor <;> norm_num

/-- With the default parameters on a 64-bit build the threshold handed over
is 5,000,000,000 ns and the timeout 0. -/
theorem probe_sched_switch_units_witness :
    (State.init 2).usec_threshold * 1000 < 2 ^ cfg64.long_bits.bits ∧
      (probe_sched_switch cfg64 kern (State.init 2) (some task7) (some task8)
          latency_tracker_event_in_ret.LATENCY_TRACKER_OK).2.filter Effect.is_event_in =
        [Effect.latency_tracker_event_in ⟨7⟩ 5000000000 Callback.offcpu_cb 0 1 0] :=
  ⟨by decide,
    (probe_sched_switch_units cfg64 kern (State.init 2) task7 task8
      latency_tracker_event_in_ret.LATENCY_TRACKER_OK (by decide) (by decide)).1⟩

/-- C6 fails as stated: with `usec_threshold = 2^64 - 1` on a 64-bit build
the threshold handed to `latency_tracker_event_in` is `2^64 - 1000`, not
`usec_threshold x 1000`. -/
theorem probe_sched_switch_units_wrap :
    (probe_sched_switch cfg64 kern state_max (some task7) (some task8)
        latency_tracker_event_in_ret.LATENCY_TRACKER_OK).2.head? =
        some (Effect.latency_tracker_event_in ⟨7⟩ 18446744073709550616 Callback.offcpu_cb 0 1 0) ∧
      (18446744073709550616 : Nat) ≠ state_max.usec_threshold * 1000 := by
  constructor
  · rfl
  · decide

theorem probe_sched_wakeup_found (cfg : Config) (k : Kernel) (st : State)
    (current p : task_struct) (success : Int) (e : latency_tracker_event) (now : Nat)
    (h : p.pid ∉ st.current_pid) :
    probe_sched_wakeup cfg k st current p success (some e) now =
      [Effect.latency_tracker_get_event ⟨p.pid⟩] ++
        (if u64_sub now e.start_ts > (st.usec_threshold * 1000) % 2 ^ cfg.long_bits.bits then
          [Effect.trace_offcpu_sched_wakeup current
            (stack_bytes (extract_stack cfg k current unwritten 0 3)) p
            (u64_sub now e.start_ts) 0]
        else []) ++
        [Effect.latency_tracker_put_event e] := by
  have hg : (st.current_pid.any fun c => c == p.pid) = false := by
    rw [Bool.eq_false_iff]
    intro hc
    rw [List.any_eq_true] at hc
    obtain ⟨x, hx, hxe⟩ := hc
    have : x = p.pid := by simpa using hxe
    exact h (this ▸ hx)
  unfold probe_sched_wakeup
  rw [hg, thresh_ns_eq]
  rfl

/-- C8, as the code has it. When `probe_sched_wakeup` passes the
`current_pid` guard and finds an open event, and `usec_threshold x 1000` fits
an `unsigned long`, it computes `delta = (now - start_ts) mod 2^64` and emits
a wakeup record carrying that delta, between the lookup and the release, if
and only if delta is strictly greater than `usec_threshold x 1000`; a delta
equal to the threshold emits nothing. -/
theorem probe_sched_wakeup_threshold (cfg : Config) (k : Kernel) (st : State)
    (current p : task_struct) (success : Int) (e : latency_tracker_event) (now : Nat)
    (h : p.pid ∉ st.current_pid)
    (hfit : st.usec_threshold * 1000 < 2 ^ cfg.long_bits.bits) :
    (probe_sched_wakeup cfg k st current p success (some e) now =
        [Effect.latency_tracker_get_event ⟨p.pid⟩] ++
          (if u64_sub now e.start_ts > st.usec_threshold * 1000 then
            [Effect.trace_offcpu_sched_wakeup current
              (stack_bytes (extract_stack cfg k current unwritten 0 3)) p
              (u64_sub now e.start_ts) 0]
          else []) ++
          [Effect.latency_tracker_put_event e]) ∧
      ((u64_sub now e.start_ts : Nat) : Int) =
        ((now : Int) - (e.start_ts : Int)) % 18446744073709551616 ∧
      ((probe_sched_wakeup cfg k st current p success (some e) now).any Effect.is_record =
          true ↔
        u64_sub now e.start_ts > st.usec_threshold * 1000) ∧
      (u64_sub now e.start_ts = st.usec_threshold * 1000 →
        (probe_sched_wakeup cfg k st current p success (some e) now).filter Effect.is_record =
          []) := by
  have hform := probe_sched_wakeup_found cfg k st current p success e now h
  rw [Nat.mod_eq_of_lt hfit] at hform
  refine ⟨hform, u64_sub_eq now e.start_ts, ?_, ?_⟩
  · rw [hform]
    by_cases hd : u64_sub now e.start_ts > st.usec_threshold * 1000
    · simp [hd, Effect.is_record]
    · simp [hd, Effect.is_record]
  · intro heq
    rw [hform, if_neg (by omega)]
    simp [Effect.is_record, List.filter_cons]

/-- With the default threshold, a delta of exactly 5,000,000,000 ns emits
nothing and a delta of 5,000,000,001 ns emits a record. -/
theorem probe_sched_wakeup_threshold_witness :
    (8 : Int) ∉ (State.init 2).current_pid ∧
      (State.init 2).usec_threshold * 1000 < 2 ^ cfg64.long_bits.bits ∧
      probe_sched_wakeup cfg64 kern (State.init 2) task7 task8 1 (some event8) 5000000000 =
        [Effect.latency_tracker_get_event ⟨8⟩, Effect.latency_tracker_put_event event8] ∧
      (probe_sched_wakeup cfg64 kern (State.init 2) task7 task8 1 (some event8)
          5000000001).any Effect.is_record = true :=
  ⟨by decide, by decide,
    (probe_sched_wakeup_threshold cfg64 kern (State.init 2) task7 task8 1 event8 5000000000
      (by decide) (by decide)).1,
    (probe_sched_wakeup_threshold cfg64 kern (State.init 2) task7 task8 1 event8 5000000001
      (by decide) (by decide)).2.2.1.mpr (by decide)⟩

/-- C8 fails as stated: with `usec_threshold = 2^64 - 1` on a 64-bit build,
an event open since time 0 and the clock at `2^64 - 999`, a wakeup record is
emitted although delta is not greater than `usec_threshold x 1000`. -/
theorem probe_sched_wakeup_threshold_wrap :
    (8 : Int) ∉ state_max.current_pid ∧
      (probe_sched_wakeup cfg64 kern state_max task7 task8 1 (some event8)
          18446744073709550617).any Effect.is_record = true ∧
      ¬ (u64_sub 18446744073709550617 event8.start_ts > state_max.usec_threshold * 1000) := by
  refine ⟨by decide, ?_, by decide⟩
  rw [probe_sched_wakeup_found cfg64 kern state_max task7 task8 1 event8
    18446744073709550617 (by decide)]
  have : u64_sub 18446744073709550617 event8.start_ts >
      (state_max.usec_threshold * 1000) % 2 ^ cfg64.long_bits.bits := by decide
  rw [if_pos this]
  rfl

/-! ## The callback -/

theorem offcpu_cb_found (cfg : Config) (k : Kernel) (st : State) (data : latency_tracker_event)
    (p : task_struct)
    (hf : data.cb_flag = latency_tracker_cb_flag.LATENCY_TRACKER_CB_NORMAL)
    (ho : data.cb_out_id ≠ SCHED_EXIT_DIED) (hp : k.pid_task data.key.pid = some p) :
    (offcpu_cb cfg k st data).2 =
        [Effect.trace_offcpu_sched_switch p.comm data.key.pid
            (u64_sub data.end_ts data.start_ts) data.cb_flag
            (stack_bytes (extract_stack cfg k p unwritten
              (u64_sub data.end_ts data.start_ts / 1000) 0)),
          Effect.offcpu_handle_proc k.priv data] ∧
      (offcpu_cb cfg k st data).1.cnt = wrap_int (st.cnt + 1) := by
  unfold offcpu_cb
  rw [if_neg (by simp [hf]), if_neg ho, hp]
  constructor
  · rfl
  · cases cfg.SCHEDWORST <;> rfl

theorem offcpu_cb_other (cfg : Config) (k : Kernel) (st : State) (data : latency_tracker_event)
    (h : ¬ (data.cb_flag = latency_tracker_cb_flag.LATENCY_TRACKER_CB_NORMAL ∧
      data.cb_out_id ≠ SCHED_EXIT_DIED ∧ (k.pid_task data.key.pid).isSome = true)) :
    (offcpu_cb cfg k st data).2 = [] ∧ (offcpu_cb cfg k st data).1.cnt = st.cnt := by
  unfold offcpu_cb
  by_cases hf : data.cb_flag = latency_tracker_cb_flag.LATENCY_TRACKER_CB_NORMAL
  · by_cases ho : data.cb_out_id = SCHED_EXIT_DIED
    · rw [if_neg (by simp [hf]), if_pos ho]
      exact ⟨rfl, rfl⟩
    · rw [if_neg (by simp [hf]), if_neg ho]
      cases hp : k.pid_task data.key.pid with
      | none =>
        constructor
        · rfl
        · cases cfg.SCHEDWORST <;> rfl
      | some p =>
        exfalso
        exact h ⟨hf, ho, by simp [hp]⟩
  · rw [if_pos hf]
    exact ⟨rfl, rfl⟩

theorem wrap_int_succ (c : Int) (h0 : INT_MIN ≤ c) (h1 : c < INT_MAX) :
    wrap_int (c + 1) = c + 1 := by
  unfold wrap_int
  unfold INT_MIN at h0
  unfold INT_MAX at h1
  omega

/-- C4, as the code has it. `offcpu_cb` emits exactly one trace record if
and only if `cb_flag` is `LATENCY_TRACKER_CB_NORMAL`, `cb_out_id` is not
`SCHED_EXIT_DIED` and a task with the pid of the key is found; the record
carries the command name of that task, the pid of the key, the elapsed time
`end_ts - start_ts` modulo `2^64`, the `cb_flag` of the event and the stack
text left by `extract_stack`, and `cnt` increases by exactly 1 provided it
is below `INT_MAX`. In every other case nothing is emitted and `cnt` is as
before. -/
theorem offcpu_cb_emits (cfg : Config) (k : Kernel) (st : State)
    (data : latency_tracker_event) :
    (((offcpu_cb cfg k st data).2.filter Effect.is_record).length = 1 ↔
        (data.cb_flag = latency_tracker_cb_flag.LATENCY_TRACKER_CB_NORMAL ∧
          data.cb_out_id ≠ SCHED_EXIT_DIED ∧ (k.pid_task data.key.pid).isSome = true)) ∧
      (∀ p : task_struct,
        data.cb_flag = latency_tracker_cb_flag.LATENCY_TRACKER_CB_NORMAL →
        data.cb_out_id ≠ SCHED_EXIT_DIED → k.pid_task data.key.pid = some p →
          (offcpu_cb cfg k st data).2.filter Effect.is_record =
              [Effect.trace_offcpu_sched_switch p.comm data.key.pid
                (u64_sub data.end_ts data.start_ts) data.cb_flag
                (stack_bytes (extract_stack cfg k p unwritten
                  (u64_sub data.end_ts data.start_ts / 1000) 0))] ∧
            ((u64_sub data.end_ts data.start_ts : Nat) : Int) =
              ((data.end_ts : Int) - (data.start_ts : Int)) % 18446744073709551616 ∧
            (INT_MIN ≤ st.cnt → st.cnt < INT_MAX →
              (offcpu_cb cfg k st data).1.cnt = st.cnt + 1)) ∧
      (¬ (data.cb_flag = latency_tracker_cb_flag.LATENCY_TRACKER_CB_NORMAL ∧
            data.cb_out_id ≠ SCHED_EXIT_DIED ∧ (k.pid_task data.key.pid).isSome = true) →
        (offcpu_cb cfg k st data).2 = [] ∧ (offcpu_cb cfg k st data).1.cnt = st.cnt) := by
  refine ⟨?_, ?_, offcpu_cb_other cfg k st data⟩
  · constructor
    · intro hlen
      by_contra hno
      rw [(offcpu_cb_other cfg k st data hno).1] at hlen
      simp at hlen
    · rintro ⟨hf, ho, hp⟩
      obtain ⟨p, hp2⟩ := Option.isSome_iff_exists.mp hp
      rw [(offcpu_cb_found cfg k st data p hf ho hp2).1]
      simp [Effect.is_record, List.filter_cons]
  · intro p hf ho hp
    obtain ⟨e1, e2⟩ := offcpu_cb_found cfg k st data p hf ho hp
    refine ⟨?_, u64_sub_eq _ _, ?_⟩
    · rw [e1]
      simp [Effect.is_record, List.filter_cons]
    · intro h0 h1
      rw [e2]
      exact wrap_int_succ st.cnt h0 h1

/-- The callback of an event of task 7 closed normally emits one record and
counts one alert. -/
theorem offcpu_cb_emits_witness :
    kern.pid_task event7.key.pid = some task7 ∧
      ((offcpu_cb cfg64 kern (State.init 2) event7).2.filter Effect.is_record =
          [Effect.trace_offcpu_sched_switch task7.comm 7 150000000
            latency_tracker_cb_flag.LATENCY_TRACKER_CB_NORMAL
            (stack_bytes (extract_stack cfg64 kern task7 unwritten 150000 0))]) ∧
      (offcpu_cb cfg64 kern (State.init 2) event7).1.cnt = 1 :=
  ⟨rfl,
    ((offcpu_cb_emits cfg64 kern (State.init 2) event7).2.1 task7 rfl (by decide) rfl).1,
    ((offcpu_cb_emits cfg64 kern (State.init 2) event7).2.1 task7 rfl (by decide) rfl).2.2
      (by decide) (by decide)⟩

/-- C4 fails as stated: after `INT_MAX` alerts, a callback that emits its
record leaves `cnt` at `INT_MIN`, which is not an increase by 1. -/
theorem offcpu_cb_cnt_wraps :
    event7.cb_flag = latency_tracker_cb_flag.LATENCY_TRACKER_CB_NORMAL ∧
      event7.cb_out_id ≠ SCHED_EXIT_DIED ∧
      kern.pid_task event7.key.pid = some task7 ∧
      ((offcpu_cb cfg64 kern state_full event7).2.filter Effect.is_record).length = 1 ∧
      (offcpu_cb cfg64 kern state_full event7).1.cnt = -2147483648 ∧
      (offcpu_cb cfg64 kern state_full event7).1.cnt ≠ state_full.cnt + 1 := by
  have e := offcpu_cb_found cfg64 kern state_full event7 task7 rfl (by decide) rfl
  refine ⟨rfl, by decide, rfl, ?_, ?_, ?_⟩
  · rw [e.1]
    rfl
  · rw [e.2]
    decide
  · rw [e.2]
    decide

/-! ## Admission failures -/

/-- On a build that skips kernel threads, a switch from a kernel thread to
task 8 issues the `event_out` of task 8 only. -/
theorem probe_sched_switch_kthread :
    (probe_sched_switch cfg_urcu kern (State.init 2) (some kthread2) (some task8)
        latency_tracker_event_in_ret.LATENCY_TRACKER_OK).2 =
      [Effect.latency_tracker_event_out ⟨8⟩ SCHED_EXIT_NORMAL] :=
  (probe_sched_switch_effects cfg_urcu kern (State.init 2) kthread2 task8
    latency_tracker_event_in_ret.LATENCY_TRACKER_OK).1

/-- Six seconds after task 8 was scheduled out, its wakeup emits a record
and releases the event once. -/
theorem probe_sched_wakeup_releases_witness :
    (probe_sched_wakeup cfg64 kern (State.init 2) task7 task8 1 (some event8)
        6000000000).filter Effect.is_put =
      [Effect.latency_tracker_put_event event8] :=
  (probe_sched_wakeup_releases cfg64 kern (State.init 2) task7 task8 1 event8
    6000000000).2.1

/-- A reliable address saved into an empty trace. -/
theorem save_stack_address_keeps_bound_witness :
    trace0.nr_entries ≤ trace0.max_entries ∧
      (__save_stack_address cfg64 kern trace0 5 true false).nr_entries ≤
        (__save_stack_address cfg64 kern trace0 5 true false).max_entries :=
  ⟨by decide, (save_stack_address_keeps_bound cfg64 kern trace0 5 true false (by decide)).1⟩

/-- A walk of 40 frames of 47 characters leaves the byte after the buffer
unwritten. -/
theorem extract_stack_within_buffer_witness :
    ((256 : Int) < 0 ∨ MAX_STACK_TXT ≤ 256) ∧
      extract_stack cfg64 kern_deep task7 unwritten 0 0 256 = unwritten 256 :=
  ⟨Or.inr (by decide),
    (extract_stack_within_buffer cfg64 kern_deep task7 0).2.2 unwritten 0 256
      (Or.inr (by decide))⟩

/-- With the first frame skipped, the two remaining texts take 11 characters
and the NUL is at offset 11. -/
theorem extract_stack_contents_witness :
    (∃ i : Nat, i < (captured cfg64 kern task7).nr_entries ∧ (1 : Int) ≤ (i : Int)) ∧
      extract_stack cfg64 kern task7 unwritten 0 1 11 = some NUL :=
  ⟨⟨1, by decide, by decide⟩,
    ((extract_stack_contents cfg64 kern task7 unwritten 0 1).1
      ⟨1, by decide, by decide⟩).2.1⟩

end Offcpu
